import Mathlib

/-
Verification of the TSM file writer (src/tskv/src/tsm/writer.rs):
FooterBuilder, TsmIndexBuilder and TsmBlockWriter, over a shallow
embedding of the writer and of its collaborators (Positional Cursor,
Data Block, error type), the latter modelled from the specification
since their modules are not part of the given source slice.
-/

namespace Tsm

/-- Big-endian bytes of a 16-bit value (Rust u16::to_be_bytes). -/
def u16be (x : Nat) : List Nat := [x / 2 ^ 8 % 256, x % 256]

/-- Big-endian bytes of a 32-bit value (Rust u32::to_be_bytes). -/
def u32be (x : Nat) : List Nat := [x / 2 ^ 24 % 256, x / 2 ^ 16 % 256, x / 2 ^ 8 % 256, x % 256]

/-- Big-endian bytes of a 64-bit value (Rust u64::to_be_bytes). -/
def u64be (x : Nat) : List Nat :=
  [x / 2 ^ 56 % 256, x / 2 ^ 48 % 256, x / 2 ^ 40 % 256, x / 2 ^ 32 % 256,
   x / 2 ^ 24 % 256, x / 2 ^ 16 % 256, x / 2 ^ 8 % 256, x % 256]

/-- Big-endian integer value of a byte list. -/
def readBE (bs : List Nat) : Nat := bs.foldl (fun a b => a * 256 + b % 256) 0

/-- Rust checked usize subtraction: debug builds panic (none) on underflow. -/
def usizeCheckedSub (a b : Nat) : Option Nat := if b ≤ a then some (a - b) else none

/-- Rust wrapping usize subtraction (release-build overflow semantics). -/
def usizeWrappingSub (a b : Nat) : Nat := (a + (2 ^ 64 - b % 2 ^ 64)) % 2 ^ 64

/-- Modelled from the spec: one bit step of CRC32 (the crc32fast crate is not
under src/); standard reflected CRC-32 with polynomial 0xEDB88320. -/
def crc32Round (c : Nat) : Nat := if c % 2 = 1 then c / 2 ^^^ 0xEDB88320 else c / 2

/-- Modelled from the spec: CRC32 state update by one input byte. -/
def crc32Update (c b : Nat) : Nat :=
  (List.range 8).foldl (fun a _ => crc32Round a) (c ^^^ (b % 256))

/-- Modelled from the spec: CRC32 of a byte list (crc32fast::hash). -/
def crc32 (bs : List Nat) : Nat := 0xFFFFFFFF ^^^ bs.foldl crc32Update 0xFFFFFFFF

/-- Modelled from the spec: the crate error type (error module not under
src/). WriteTsmErr carries the underlying cause string (spec section 7,
WriteError); EncodeErr models Data Block encode failure on an invalid
sub-range (spec section 4.1). -/
inductive Error where
  | WriteTsmErr (reason : String)
  | EncodeErr (reason : String)
deriving DecidableEq

/-- Overwrite bytes of a file d at position p (positional write semantics). -/
def writeAt (d : List Nat) (p : Nat) (b : List Nat) : List Nat :=
  d.take p ++ b ++ d.drop (p + b.length)

/-- Modelled from the spec: the Positional Cursor (direct_io module not under
src/): a seekable, position-tracking byte sink. data holds the file bytes
and pos the cursor position. opsDone counts performed seek/write operations
and failAt injects an I/O failure (message failMsg) at that operation index,
so that error paths can be exercised; a failing operation leaves the cursor
unchanged. hdrWrites is a ghost counter of header emissions, used only to
state the header-once property; it is not cursor state of the source. -/
structure FileCursor where
  data : List Nat
  pos : Nat
  opsDone : Nat
  failAt : Option Nat
  failMsg : String
  hdrWrites : Nat
deriving DecidableEq

/-- Cursor write: fails when the failure schedule hits, else overwrites at
pos and advances. -/
def FileCursor.write (c : FileCursor) (buf : List Nat) : (Except String Unit) × FileCursor :=
  if c.failAt = some c.opsDone then (Except.error c.failMsg, c)
  else (Except.ok (), { c with data := writeAt c.data c.pos buf,
                               pos := c.pos + buf.length, opsDone := c.opsDone + 1 })

/-- Cursor seek to SeekFrom::Start(0). -/
def FileCursor.seekStart0 (c : FileCursor) : (Except String Unit) × FileCursor :=
  if c.failAt = some c.opsDone then (Except.error c.failMsg, c)
  else (Except.ok (), { c with pos := 0, opsDone := c.opsDone + 1 })

/-- File Block descriptor (crate struct FileBlock, module not under src/;
fields exactly as constructed by writer.rs and described in spec section 3). -/
structure FileBlock where
  min_ts : Nat
  max_ts : Nat
  offset : Nat
  filed_type : Nat
  size : Nat
  reader_idx : Nat
deriving DecidableEq

/-- Modelled from the spec: the Data Block (tsm block module not under src/):
parallel arrays of timestamps and values tagged with a value type
(spec sections 3 and 4.1). -/
structure DataBlock where
  filed_type : Nat
  ts : List Nat
  val : List Nat
deriving DecidableEq

/-- Data Block length: the value count. -/
def DataBlock.len (b : DataBlock) : Nat := b.ts.length

/-- Modelled from the spec: timeRange(start, end) yields the (min, max)
timestamps over the half-open index range (spec section 4.1). -/
def DataBlock.time_range (b : DataBlock) (s e : Nat) : Nat × Nat :=
  let sl := (b.ts.drop s).take (e - s)
  (sl.foldl Nat.min (sl.headD 0), sl.foldl Nat.max (sl.headD 0))

/-- Modelled from the spec: the concrete columnar coder (tsm coders module,
not under src/) as a 4-byte big-endian element count followed by 8
big-endian bytes per element; an invertible encoding, as the symmetric
reader of spec section 4.5 requires. -/
def encodeU64s (xs : List Nat) : List Nat := u32be xs.length ++ xs.flatMap u64be

/-- Modelled from the spec: encode(start, end) returns the columnar timestamp
and value buffers of the sub-range, failing outside [0, len] or when
start > end (spec section 4.1). -/
def DataBlock.encode (b : DataBlock) (s e : Nat) : Except Error (List Nat × List Nat) :=
  if s ≤ e ∧ e ≤ b.len then
    Except.ok (encodeU64s ((b.ts.drop s).take (e - s)), encodeU64s ((b.val.drop s).take (e - s)))
  else Except.error (Error.EncodeErr "invalid range")

/-- Header length constant of writer.rs. -/
def HEADER_LEN : Nat := 5

/-- Magic constant of writer.rs. -/
def TSM_MAGIC : Nat := 0x1346613

/-- Version constant of writer.rs. -/
def VERSION : Nat := 1

/-- The 5 header bytes: 4-byte big-endian magic then the 1-byte version. -/
def headerBytes : List Nat := u32be TSM_MAGIC ++ [VERSION]

/-- FooterBuilder::build: write the 8-byte big-endian index start offset at
the current cursor position; map an underlying failure to WriteTsmErr. -/
def FooterBuilder.build (c : FileCursor) (offset : Nat) : (Except Error Unit) × FileCursor :=
  match c.write (u64be offset) with
  | (Except.error e, c) => (Except.error (Error.WriteTsmErr e), c)
  | (Except.ok _, c) => (Except.ok (), c)

/-- One index record as assembled in the loop body of TsmIndexBuilder::build:
8-byte big-endian field id, the hardcoded 1-byte type tag (let typ: u8 = 1
in the source), the 2-byte block count (blks.len() as u16, a truncating
cast), then per block the four 8-byte big-endian fields min_ts, max_ts,
offset, size. -/
def indexRecord (fid : Nat) (blks : List FileBlock) : List Nat :=
  u64be fid ++ [1] ++ u16be (blks.length % 2 ^ 16) ++
    blks.flatMap (fun blk => u64be blk.min_ts ++ u64be blk.max_ts ++ u64be blk.offset ++ u64be blk.size)

/-- The for loop of TsmIndexBuilder::build over the grouped File Blocks.
blks.first().unwrap() on an empty group is a panic, modelled as none. -/
def TsmIndexBuilder.buildLoop : List (Nat × List FileBlock) → FileCursor → Option ((Except Error Unit) × FileCursor)
  | [], c => some (Except.ok (), c)
  | (fid, blks) :: rest, c =>
    match blks.head? with
    | none => none
    | some _block =>
      match c.write (indexRecord fid blks) with
      | (Except.error e, c) => some (Except.error (Error.WriteTsmErr e), c)
      | (Except.ok _, c) => TsmIndexBuilder.buildLoop rest c

/-- TsmIndexBuilder::build: record the current position, append one record
per field id (HashMap iteration modelled as association-list order; spec
section 4.3 fixes no ordering), and return the recorded start position. -/
def TsmIndexBuilder.build (indexs : List (Nat × List FileBlock)) (c : FileCursor) : Option ((Except Error Nat) × FileCursor) :=
  match TsmIndexBuilder.buildLoop indexs c with
  | none => none
  | some (Except.error e, c2) => some (Except.error e, c2)
  | some (Except.ok _, c2) => some (Except.ok c.pos, c2)

/-- Header emission step of TsmBlockWriter::build: when the cursor position
is at or before HEADER_LEN, seek to the file start and write the 5-byte
header. The ghost hdrWrites counter is bumped exactly when the header is
written. -/
def emitHeaderIfNeeded (c : FileCursor) : (Except Error Unit) × FileCursor :=
  if c.pos ≤ HEADER_LEN then
    match c.seekStart0 with
    | (Except.error e, c) => (Except.error (Error.WriteTsmErr e), c)
    | (Except.ok _, c) =>
      match c.write headerBytes with
      | (Except.error e, c) => (Except.error (Error.WriteTsmErr e), c)
      | (Except.ok _, c) => (Except.ok (), { c with hdrWrites := c.hdrWrites + 1 })
  else (Except.ok (), c)

/-- Data emission of one sub-block in TsmBlockWriter::build: record the
current position as offset, write the 4-byte big-endian CRC32 of the
timestamp buffer, the timestamp buffer, the 4-byte big-endian CRC32 of the
value buffer, the value buffer, and produce the FileBlock descriptor with
size the sum of the two buffer lengths and reader_idx 0. -/
def writeBlockData (ts_buf data_buf : List Nat) (min_ts max_ts filed_type : Nat) (c : FileCursor) : (Except Error FileBlock) × FileCursor :=
  let offset := c.pos
  match c.write (u32be (crc32 ts_buf)) with
  | (Except.error e, c) => (Except.error (Error.WriteTsmErr e), c)
  | (Except.ok _, c) =>
    match c.write ts_buf with
    | (Except.error e, c) => (Except.error (Error.WriteTsmErr e), c)
    | (Except.ok _, c) =>
      match c.write (u32be (crc32 data_buf)) with
      | (Except.error e, c) => (Except.error (Error.WriteTsmErr e), c)
      | (Except.ok _, c) =>
        match c.write data_buf with
        | (Except.error e, c) => (Except.error (Error.WriteTsmErr e), c)
        | (Except.ok _, c) =>
          (Except.ok { min_ts := min_ts, max_ts := max_ts, offset := offset,
                       filed_type := filed_type, size := ts_buf.length + data_buf.length,
                       reader_idx := 0 }, c)

/-- The while loop of TsmBlockWriter::build, recursing on the remaining
iteration count k = n - i; last_index is the running start cursor, and the
end boundary is len % MAX + i * MAX as in the source. -/
def TsmBlockWriter.buildLoop (MAX : Nat) (block : DataBlock) (len ft : Nat) : Nat → Nat → Nat → FileCursor → (Except Error (List FileBlock)) × FileCursor
  | 0, _, _, c => (Except.ok [], c)
  | k + 1, i, last_index, c =>
    let start := last_index
    let e := len % MAX + i * MAX
    let mm := block.time_range start e
    match block.encode start e with
    | Except.error err => (Except.error err, c)
    | Except.ok (ts_buf, data_buf) =>
      match emitHeaderIfNeeded c with
      | (Except.error er, c) => (Except.error er, c)
      | (Except.ok _, c) =>
        match writeBlockData ts_buf data_buf mm.1 mm.2 ft c with
        | (Except.error er, c) => (Except.error er, c)
        | (Except.ok fb, c) =>
          match TsmBlockWriter.buildLoop MAX block len ft k (i + 1) e c with
          | (Except.ok rest, c) => (Except.ok (fb :: rest), c)
          | (Except.error er, c) => (Except.error er, c)

/-- TsmBlockWriter::build: n = (len - 1) / MAX_BLOCK_VALUES + 1 sub-blocks.
The subtraction has Rust debug semantics: underflow at len = 0 panics,
modelled as none (division by zero likewise). MAX_BLOCK_VALUES lives in a
module not under src/, so it is a parameter MAX here. -/
def TsmBlockWriter.build (MAX : Nat) (block : DataBlock) (c : FileCursor) : Option ((Except Error (List FileBlock)) × FileCursor) :=
  if MAX = 0 then none
  else
    match usizeCheckedSub block.len 1 with
    | none => none
    | some m => some (TsmBlockWriter.buildLoop MAX block block.len block.filed_type (m / MAX + 1) 0 0 c)

/-- Modelled from the spec: driving the Block Writer over the Data
Blocks of every field in sequence over one shared cursor (spec section 2, TSM File
composition; the driver itself is not under src/). -/
def TsmBlockWriter.buildMany (MAX : Nat) : List DataBlock → FileCursor → Option ((Except Error (List (List FileBlock))) × FileCursor)
  | [], c => some (Except.ok [], c)
  | b :: rest, c =>
    match TsmBlockWriter.build MAX b c with
    | none => none
    | some (Except.error e, c2) => some (Except.error e, c2)
    | some (Except.ok res, c2) =>
      match TsmBlockWriter.buildMany MAX rest c2 with
      | none => none
      | some (Except.error e, c3) => some (Except.error e, c3)
      | some (Except.ok ress, c3) => some (Except.ok (res :: ress), c3)

/-- A cursor over a fresh empty file with no injected failure. -/
def freshCursor : FileCursor :=
  { data := [], pos := 0, opsDone := 0, failAt := none, failMsg := "", hdrWrites := 0 }

/-- Modelled from the spec: the full file build (spec sections 2 and 4):
Block Writer over the Data Block of every field, then Index Builder over the
grouped descriptors, then Footer Builder with the returned index offset,
all over one shared cursor. Returns the final file bytes. -/
def writeTsmFile (MAX : Nat) (fields : List (Nat × DataBlock)) (c : FileCursor) : Option ((Except Error Unit) × FileCursor) :=
  match TsmBlockWriter.buildMany MAX (fields.map Prod.snd) c with
  | none => none
  | some (Except.error e, c2) => some (Except.error e, c2)
  | some (Except.ok ress, c2) =>
    match TsmIndexBuilder.build (List.zip (fields.map Prod.fst) ress) c2 with
    | none => none
    | some (Except.error e, c3) => some (Except.error e, c3)
    | some (Except.ok offset, c3) =>
      match FooterBuilder.build c3 offset with
      | (Except.error e, c4) => some (Except.error e, c4)
      | (Except.ok _, c4) => some (Except.ok (), c4)

/-- The bytes of file at [off, off + n). -/
def bytesAt (file : List Nat) (off n : Nat) : List Nat := (file.drop off).take n

/-- Modelled from the spec: decode the inverse of encodeU64s, reading count
big-endian 8-byte values (spec section 4.5 reader symmetry). -/
def decodeChunks : Nat → List Nat → List Nat
  | 0, _ => []
  | k + 1, bs => readBE (bs.take 8) :: decodeChunks k (bs.drop 8)

/-- Modelled from the spec: decode one columnar buffer back to its values. -/
def decodeU64s (buf : List Nat) : Option (List Nat) :=
  if buf.length < 4 then none
  else
    let cnt := readBE (buf.take 4)
    if buf.length = 4 + 8 * cnt then some (decodeChunks cnt (buf.drop 4)) else none

/-- Modelled from the spec: parse the fixed 32-byte index sub-records
(min-ts, max-ts, offset, size), returning them with the remaining bytes
(spec sections 4.3 and 4.5). -/
def parseSubRecs : Nat → List Nat → Option (List (Nat × Nat × Nat × Nat) × List Nat)
  | 0, bs => some ([], bs)
  | k + 1, bs =>
    if bs.length < 32 then none
    else
      match parseSubRecs k (bs.drop 32) with
      | none => none
      | some (recs, rest) =>
        some ((readBE (bs.take 8), readBE (bytesAt bs 8 8), readBE (bytesAt bs 16 8),
               readBE (bytesAt bs 24 8)) :: recs, rest)

/-- Modelled from the spec: parse index records (field id, type tag, count,
sub-records) until the region is exhausted (spec sections 4.3 and 4.5);
fuel bounds the recursion. -/
def parseIndexRecs : Nat → List Nat → Option (List (Nat × Nat × List (Nat × Nat × Nat × Nat)))
  | _, [] => some []
  | 0, _ :: _ => none
  | f + 1, bs =>
    if bs.length < 11 then none
    else
      let fid := readBE (bs.take 8)
      let typ := (bs.drop 8).headD 0
      let cnt := readBE (bytesAt bs 9 2)
      match parseSubRecs cnt (bs.drop 11) with
      | none => none
      | some (recs, rest) =>
        match parseIndexRecs f rest with
        | none => none
        | some more => some ((fid, typ, recs) :: more)

/-- Modelled from the spec: read one data block at its offset, checking each
CRC32 against its buffer before decoding (spec section 4.5). -/
def readBlockAt (file : List Nat) (off : Nat) : Option (List (Nat × Nat)) :=
  let crc1 := readBE (bytesAt file off 4)
  let c1 := readBE (bytesAt file (off + 4) 4)
  let ts_buf := bytesAt file (off + 4) (4 + 8 * c1)
  if crc32 ts_buf ≠ crc1 then none
  else
    match decodeU64s ts_buf with
    | none => none
    | some tss =>
      let voff := off + 8 + 8 * c1
      let crc2 := readBE (bytesAt file voff 4)
      let c2 := readBE (bytesAt file (voff + 4) 4)
      let val_buf := bytesAt file (voff + 4) (4 + 8 * c2)
      if crc32 val_buf ≠ crc2 then none
      else
        match decodeU64s val_buf with
        | none => none
        | some vs => some (tss.zip vs)

/-- Modelled from the spec: read and concatenate all blocks of one field in
index order (spec section 4.5). -/
def readFieldBlocks (file : List Nat) : List (Nat × Nat × Nat × Nat) → Option (List (Nat × Nat))
  | [] => some []
  | (_, _, off, _) :: rest =>
    match readBlockAt file off with
    | none => none
    | some prs =>
      match readFieldBlocks file rest with
      | none => none
      | some more => some (prs ++ more)

/-- Modelled from the spec: the symmetric reader (spec section 4.5): read the
trailing 8 bytes as the index offset, parse index records up to end-of-file
minus 8, and decode every referenced block; yields per field id its type
tag and (timestamp, value) pairs. -/
def readTsmFile (file : List Nat) : Option (List (Nat × Nat × List (Nat × Nat))) :=
  if file.length < 8 then none
  else
    let ofs := readBE (bytesAt file (file.length - 8) 8)
    if file.length - 8 < ofs then none
    else
      match parseIndexRecs file.length (bytesAt file ofs (file.length - 8 - ofs)) with
      | none => none
      | some recs =>
        List.foldr (fun rec acc =>
          match acc with
          | none => none
          | some out =>
            match readFieldBlocks file rec.2.2 with
            | none => none
            | some prs => some ((rec.1, rec.2.1, prs) :: out)) (some []) recs

/-- The end boundary computed at iteration i of the sub-block loop. -/
def endF (MAX len i : Nat) : Nat := len % MAX + i * MAX

/-- The start boundary at iteration i: 0 initially, then the previous end. -/
def startF (MAX len : Nat) : Nat → Nat
  | 0 => 0
  | i + 1 => endF MAX len i

/-- Concrete Data Block whose length equals MAX = 2 (round-trip failing
input). -/
def blockC1 : DataBlock := { filed_type := 1, ts := [1, 2], val := [3, 4] }

/-- Concrete Data Block of length 3 used as witness input. -/
def blockW : DataBlock := { filed_type := 1, ts := [1, 2, 3], val := [4, 5, 6] }

/-- Concrete File Block descriptor with value-type tag 2. -/
def fbC5 : FileBlock :=
  { min_ts := 0, max_ts := 9, offset := 5, filed_type := 2, size := 8, reader_idx := 0 }

/-- Fresh cursor whose fourth operation (index 3) fails with message io. -/
def failCursor3 : FileCursor :=
  { data := [], pos := 0, opsDone := 0, failAt := some 3, failMsg := "io", hdrWrites := 0 }

/-- Cursor mid-file whose next operation fails. -/
def failCursor0 : FileCursor :=
  { data := [10, 11], pos := 2, opsDone := 0, failAt := some 0, failMsg := "disk full",
    hdrWrites := 0 }

@[simp] lemma length_u16be (x : Nat) : (u16be x).length = 2 := rfl

@[simp] lemma length_u32be (x : Nat) : (u32be x).length = 4 := rfl

@[simp] lemma length_u64be (x : Nat) : (u64be x).length = 8 := rfl

@[simp] lemma length_headerBytes : headerBytes.length = 5 := rfl

lemma FileCursor.write_ok (c : FileCursor) (buf : List Nat) (h : c.failAt = none) :
    c.write buf = (Except.ok (), { c with data := writeAt c.data c.pos buf,
                                          pos := c.pos + buf.length,
                                          opsDone := c.opsDone + 1 }) := by
  simp [FileCursor.write, h]

lemma FileCursor.seekStart0_ok (c : FileCursor) (h : c.failAt = none) :
    c.seekStart0 = (Except.ok (), { c with pos := 0, opsDone := c.opsDone + 1 }) := by
  simp [FileCursor.seekStart0, h]

lemma writeAt_eq_append (d : List Nat) (p : Nat) (b : List Nat) (h : p = d.length) :
    writeAt d p b = d ++ b := by
  subst h
  simp [writeAt, List.drop_eq_nil_of_le (Nat.le_add_right d.length b.length)]

lemma readBE_u16be (x : Nat) (h : x < 65536) : readBE (u16be x) = x := by
  simp [readBE, u16be]
  omega

lemma readBE_u64be (x : Nat) (h : x < 18446744073709551616) : readBE (u64be x) = x := by
  simp [readBE, u64be]
  omega

lemma indexRecord_count_bytes (fid : Nat) (blks : List FileBlock) :
    bytesAt (indexRecord fid blks) 9 2 = u16be (blks.length % 2 ^ 16) := by
  rfl

/-- C10: the per-field block count is written as blks.len() cast to u16: the
stored 2-byte count equals the true count modulo 65536, and equals the true
count exactly when the group holds at most 65535 File Blocks. -/
theorem C10_block_count_truncation :
    ∀ (fid : Nat) (blks : List FileBlock),
      bytesAt (indexRecord fid blks) 9 2 = u16be (blks.length % 2 ^ 16) ∧
      readBE (bytesAt (indexRecord fid blks) 9 2) = blks.length % 2 ^ 16 ∧
      (blks.length ≤ 65535 → readBE (bytesAt (indexRecord fid blks) 9 2) = blks.length) ∧
      (65535 < blks.length → readBE (bytesAt (indexRecord fid blks) 9 2) ≠ blks.length) := by
  intro fid blks
  have h16 : (2 : Nat) ^ 16 = 65536 := by norm_num
  have hlt : blks.length % 2 ^ 16 < 65536 := by rw [h16]; exact Nat.mod_lt _ (by norm_num)
  have hval : readBE (bytesAt (indexRecord fid blks) 9 2) = blks.length % 2 ^ 16 := by
    rw [indexRecord_count_bytes, readBE_u16be _ hlt]
  refine ⟨indexRecord_count_bytes fid blks, hval, ?_, ?_⟩
  · intro hle
    rw [hval, h16]
    omega
  · intro hgt
    rw [hval, h16]
    omega

/-- C10 witness: a concrete group of one File Block stores count 1. -/
theorem C10_block_count_truncation_witness :
    readBE (bytesAt (indexRecord 3 [fbC5]) 9 2) = 1 :=
  (C10_block_count_truncation 3 [fbC5]).2.2.1 (by decide)

lemma TsmIndexBuilder.buildLoop_ne_none :
    ∀ (indexs : List (Nat × List FileBlock)) (c : FileCursor),
      (∀ p ∈ indexs, p.2 ≠ []) → TsmIndexBuilder.buildLoop indexs c ≠ none := by
  intro indexs
  induction indexs with
  | nil => intro c _; simp [TsmIndexBuilder.buildLoop]
  | cons hd tl ih =>
    intro c h
    obtain ⟨fid, blks⟩ := hd
    have hne : blks ≠ [] := h (fid, blks) (List.mem_cons_self _ _)
    cases blks with
    | nil => exact absurd rfl hne
    | cons b bs =>
      cases hw : FileCursor.write c (indexRecord fid (b :: bs)) with
      | mk e c2 =>
        cases e with
        | error s => simp [TsmIndexBuilder.buildLoop, List.head?, hw]
        | ok u =>
          simp only [TsmIndexBuilder.buildLoop, List.head?, hw]
          exact ih c2 (fun p hp => h p (List.mem_cons_of_mem _ hp))

lemma TsmIndexBuilder.buildLoop_none_of_empty_group :
    ∀ (indexs : List (Nat × List FileBlock)) (c : FileCursor),
      c.failAt = none → (∃ p ∈ indexs, p.2 = []) →
      TsmIndexBuilder.buildLoop indexs c = none := by
  intro indexs
  induction indexs with
  | nil => intro c _ h; simp at h
  | cons hd tl ih =>
    intro c hf h
    obtain ⟨fid, blks⟩ := hd
    cases blks with
    | nil => simp [TsmIndexBuilder.buildLoop, List.head?]
    | cons b bs =>
      have htl : ∃ p ∈ tl, p.2 = [] := by
        obtain ⟨p, hp, hpe⟩ := h
        rcases List.mem_cons.mp hp with heq | hmem
        · rw [heq] at hpe; simp at hpe
        · exact ⟨p, hmem, hpe⟩
      rw [show TsmIndexBuilder.buildLoop ((fid, b :: bs) :: tl) c =
            TsmIndexBuilder.buildLoop tl
              { c with data := writeAt c.data c.pos (indexRecord fid (b :: bs)),
                       pos := c.pos + (indexRecord fid (b :: bs)).length,
                       opsDone := c.opsDone + 1 } from by
        simp [TsmIndexBuilder.buildLoop, List.head?, FileCursor.write_ok _ _ hf]]
      exact ih _ hf htl

/-- C8: TsmIndexBuilder::build panics (first().unwrap()) exactly on an empty
File Block group: with all groups non-empty the build never panics; with
a never-failing cursor and some empty group it panics instead of returning
a write error. -/
theorem C8_index_empty_group_panics :
    (∀ (indexs : List (Nat × List FileBlock)) (c : FileCursor),
      (∀ p ∈ indexs, p.2 ≠ []) → TsmIndexBuilder.build indexs c ≠ none) ∧
    (∀ (indexs : List (Nat × List FileBlock)) (c : FileCursor),
      c.failAt = none → (∃ p ∈ indexs, p.2 = []) →
      TsmIndexBuilder.build indexs c = none) := by
  constructor
  · intro indexs c h
    have hl := TsmIndexBuilder.buildLoop_ne_none indexs c h
    unfold TsmIndexBuilder.build
    cases hres : TsmIndexBuilder.buildLoop indexs c with
    | none => exact absurd hres hl
    | some v =>
      obtain ⟨e, c2⟩ := v
      cases e <;> simp
  · intro indexs c hf h
    unfold TsmIndexBuilder.build
    rw [TsmIndexBuilder.buildLoop_none_of_empty_group indexs c hf h]

/-- C8 witness: a non-empty group builds; an empty group panics. -/
theorem C8_index_empty_group_panics_witness :
    TsmIndexBuilder.build [(5, [fbC5])] freshCursor ≠ none ∧
    TsmIndexBuilder.build [(5, [fbC5]), (6, [])] freshCursor = none :=
  ⟨C8_index_empty_group_panics.1 [(5, [fbC5])] freshCursor (by decide),
   C8_index_empty_group_panics.2 [(5, [fbC5]), (6, [])] freshCursor rfl
     ⟨(6, []), by decide, rfl⟩⟩

/-- C9: TsmBlockWriter::build never returns an error value on an empty Data
Block: the count expression (len - 1) / MAX + 1 underflows at len = 0, a
debug-build panic (modelled none), while release-build wrapping subtraction
yields 2^64 - 1 and hence a huge sub-block count; with len at least 1 the
subtraction never underflows. -/
theorem C9_empty_block_underflow :
    (∀ (MAX : Nat) (block : DataBlock) (c : FileCursor), block.len = 0 →
      TsmBlockWriter.build MAX block c = none) ∧
    usizeCheckedSub 0 1 = none ∧
    (∀ len : Nat, 1 ≤ len → usizeCheckedSub len 1 = some (len - 1)) ∧
    usizeWrappingSub 0 1 = 2 ^ 64 - 1 ∧
    usizeWrappingSub 0 1 / 1000 + 1 = 18446744073709552 := by
  refine ⟨?_, by decide, ?_, by decide, by decide⟩
  · intro MAX block c h
    unfold TsmBlockWriter.build
    rw [h]
    simp [usizeCheckedSub]
  · intro len h
    simp [usizeCheckedSub, h]

/-- C9 witness: the empty block panics the writer; length 3 does not
underflow. -/
theorem C9_empty_block_underflow_witness :
    TsmBlockWriter.build 2 { filed_type := 1, ts := [], val := [] } freshCursor = none ∧
    usizeCheckedSub 3 1 = some 2 :=
  ⟨C9_empty_block_underflow.1 2 _ freshCursor rfl,
   C9_empty_block_underflow.2.2.1 3 (by decide)⟩

/-- C6: FooterBuilder::build writes exactly the 8-byte big-endian index start
offset at the current position, so the reader recovers it from the last 8
bytes of the file; an underlying failure surfaces as a write error. -/
theorem C6_footer_writes_index_offset :
    ∀ (c : FileCursor) (offset : Nat),
      (c.failAt = none →
        FooterBuilder.build c offset =
          (Except.ok (), { c with data := writeAt c.data c.pos (u64be offset),
                                  pos := c.pos + 8, opsDone := c.opsDone + 1 })) ∧
      (c.failAt = none → c.pos = c.data.length → offset < 18446744073709551616 →
        (FooterBuilder.build c offset).2.data = c.data ++ u64be offset ∧
        readBE (((FooterBuilder.build c offset).2.data).drop
          ((FooterBuilder.build c offset).2.data.length - 8)) = offset) ∧
      (c.failAt = some c.opsDone →
        FooterBuilder.build c offset = (Except.error (Error.WriteTsmErr c.failMsg), c)) := by
  intro c offset
  refine ⟨?_, ?_, ?_⟩
  · intro hf
    rw [show FooterBuilder.build c offset =
          (Except.ok (), { c with data := writeAt c.data c.pos (u64be offset),
                                  pos := c.pos + (u64be offset).length,
                                  opsDone := c.opsDone + 1 }) from by
      simp [FooterBuilder.build, FileCursor.write_ok _ _ hf]]
    simp
  · intro hf hp hlt
    have hbuild : FooterBuilder.build c offset =
        (Except.ok (), { c with data := writeAt c.data c.pos (u64be offset),
                                pos := c.pos + (u64be offset).length,
                                opsDone := c.opsDone + 1 }) := by
      simp [FooterBuilder.build, FileCursor.write_ok _ _ hf]
    rw [hbuild, writeAt_eq_append _ _ _ hp]
    refine ⟨rfl, ?_⟩
    have hlen : (c.data ++ u64be offset).length - 8 = c.data.length := by
      simp
    rw [hlen, List.drop_left, readBE_u64be _ hlt]
  · intro hf
    simp [FooterBuilder.build, FileCursor.write, hf]

/-- C6 witness: footer write on a fresh cursor and on a failing cursor. -/
theorem C6_footer_writes_index_offset_witness :
    (FooterBuilder.build freshCursor 21).2.data = u64be 21 ∧
    FooterBuilder.build failCursor0 21 =
      (Except.error (Error.WriteTsmErr "disk full"), failCursor0) := by
  constructor
  · have h := ((C6_footer_writes_index_offset freshCursor 21).2.1 rfl rfl (by norm_num)).1
    simpa using h
  · exact (C6_footer_writes_index_offset failCursor0 21).2.2 rfl

/-- C5: the 1-byte value-type tag stored in the index record is NOT taken
from the first File Block descriptor of the group: the source hardcodes
typ = 1 (the line taking block.filed_type is commented out), so a group
whose first descriptor carries tag 2 is serialized with tag byte 1. -/
theorem C5_index_tag_not_from_descriptor :
    ∃ c2, TsmIndexBuilder.build [(5, [fbC5])] freshCursor = some (Except.ok 0, c2) ∧
      bytesAt c2.data 8 1 = [1] ∧
      fbC5.filed_type = 2 ∧
      (bytesAt c2.data 8 1).headD 0 ≠ fbC5.filed_type := by
  refine ⟨_, rfl, rfl, rfl, by decide⟩

lemma writeBlockData_ok (ts_buf data_buf : List Nat) (mn mx ft : Nat) (c : FileCursor)
    (hf : c.failAt = none) (hp : c.pos = c.data.length) :
    writeBlockData ts_buf data_buf mn mx ft c =
      (Except.ok { min_ts := mn, max_ts := mx, offset := c.pos, filed_type := ft,
                   size := ts_buf.length + data_buf.length, reader_idx := 0 },
       { c with data := c.data ++ u32be (crc32 ts_buf) ++ ts_buf ++
                          u32be (crc32 data_buf) ++ data_buf,
                pos := c.pos + 4 + ts_buf.length + 4 + data_buf.length,
                opsDone := c.opsDone + 4 }) := by
  simp only [writeBlockData]
  simp [FileCursor.write, hf, writeAt_eq_append, hp, List.append_assoc, Nat.add_assoc]

/-- C4: for each sub-block, once the header is settled, the writer records
the current position as offset and appends, in order, the 4-byte big-endian
CRC32 of the timestamp buffer, the timestamp buffer, the 4-byte big-endian
CRC32 of the value buffer and the value buffer, returning the descriptor
with size the sum of the two buffer lengths (the two CRCs excluded) and
reader_idx 0. -/
theorem C4_sub_block_emission :
    ∀ (ts_buf data_buf : List Nat) (mn mx ft : Nat) (c : FileCursor),
      c.failAt = none → c.pos = c.data.length →
      writeBlockData ts_buf data_buf mn mx ft c =
        (Except.ok { min_ts := mn, max_ts := mx, offset := c.pos, filed_type := ft,
                     size := ts_buf.length + data_buf.length, reader_idx := 0 },
         { c with data := c.data ++ u32be (crc32 ts_buf) ++ ts_buf ++
                            u32be (crc32 data_buf) ++ data_buf,
                  pos := c.pos + 4 + ts_buf.length + 4 + data_buf.length,
                  opsDone := c.opsDone + 4 }) ∧
      (writeBlockData ts_buf data_buf mn mx ft c).2.data.length =
        c.data.length + 8 + (ts_buf.length + data_buf.length) := by
  intro ts_buf data_buf mn mx ft c hf hp
  refine ⟨writeBlockData_ok ts_buf data_buf mn mx ft c hf hp, ?_⟩
  rw [writeBlockData_ok ts_buf data_buf mn mx ft c hf hp]
  simp
  omega

/-- C4 witness: concrete one-byte buffers through writeBlockData. -/
theorem C4_sub_block_emission_witness :
    (writeBlockData [9] [8] 5 6 1 freshCursor).1 =
      Except.ok { min_ts := 5, max_ts := 6, offset := 0, filed_type := 1,
                  size := 2, reader_idx := 0 } := by
  rw [(C4_sub_block_emission [9] [8] 5 6 1 freshCursor rfl rfl).1]
  rfl

lemma startF_le_endF (MAX len i : Nat) : startF MAX len i ≤ endF MAX len i := by
  cases i with
  | zero => exact Nat.zero_le _
  | succ j =>
    show endF MAX len j ≤ endF MAX len (j + 1)
    have h : j * MAX ≤ (j + 1) * MAX := Nat.mul_le_mul (Nat.le_succ j) (le_refl MAX)
    unfold endF
    omega

lemma endF_le_len (MAX len : Nat) (hM : 1 ≤ MAX) (hl : 1 ≤ len) (i : Nat)
    (hi : i ≤ (len - 1) / MAX) : endF MAX len i ≤ len := by
  have hdm1 := Nat.div_add_mod (len - 1) MAX
  have hx : len = (len - 1) + 1 := by omega
  have hsucc : len % MAX ≤ (len - 1) % MAX + 1 := by
    have h1 : len % MAX = ((len - 1) % MAX + 1 % MAX) % MAX := by
      conv_lhs => rw [hx]
      exact Nat.add_mod _ _ _
    calc len % MAX = ((len - 1) % MAX + 1 % MAX) % MAX := h1
      _ ≤ (len - 1) % MAX + 1 % MAX := Nat.mod_le _ _
      _ ≤ (len - 1) % MAX + 1 := Nat.add_le_add_left (Nat.mod_le 1 MAX) _
  have hmul : i * MAX ≤ ((len - 1) / MAX) * MAX := Nat.mul_le_mul hi (le_refl MAX)
  have hcomm : ((len - 1) / MAX) * MAX = MAX * ((len - 1) / MAX) := Nat.mul_comm _ _
  show len % MAX + i * MAX ≤ len
  generalize hQ : i * MAX = Q at hmul ⊢
  generalize hP : ((len - 1) / MAX) * MAX = P at hmul hcomm
  generalize hZ : MAX * ((len - 1) / MAX) = Z at hcomm hdm1
  generalize hA : len % MAX = A at hsucc ⊢
  generalize hB : (len - 1) % MAX = B at hsucc hdm1
  omega

lemma endF_sub_startF_le (MAX len : Nat) (hM : 1 ≤ MAX) (i : Nat) :
    endF MAX len i - startF MAX len i ≤ MAX := by
  cases i with
  | zero =>
    show endF MAX len 0 - 0 ≤ MAX
    have h := Nat.mod_lt len (show 0 < MAX by omega)
    unfold endF
    omega
  | succ j =>
    show endF MAX len (j + 1) - endF MAX len j ≤ MAX
    have h : (j + 1) * MAX = j * MAX + MAX := Nat.succ_mul j MAX
    unfold endF
    omega

lemma DataBlock.encode_ok (b : DataBlock) (s e : Nat) (h1 : s ≤ e) (h2 : e ≤ b.len) :
    b.encode s e = Except.ok (encodeU64s ((b.ts.drop s).take (e - s)),
                              encodeU64s ((b.val.drop s).take (e - s))) := by
  simp [DataBlock.encode, h1, h2]

lemma emitHeaderIfNeeded_error_form (c : FileCursor) (r : Error) (c2 : FileCursor)
    (h : emitHeaderIfNeeded c = (Except.error r, c2)) : ∃ m, r = Error.WriteTsmErr m := by
  simp only [emitHeaderIfNeeded] at h
  split at h
  · split at h
    · injection h with h1 h2
      injection h1 with h3
      exact ⟨_, h3.symm⟩
    · split at h
      · injection h with h1 h2
        injection h1 with h3
        exact ⟨_, h3.symm⟩
      · injection h with h1 h2
        injection h1
  · injection h with h1 h2
    injection h1

lemma writeBlockData_error_form (ts_buf data_buf : List Nat) (mn mx ft : Nat)
    (c : FileCursor) (r : Error) (c2 : FileCursor)
    (h : writeBlockData ts_buf data_buf mn mx ft c = (Except.error r, c2)) :
    ∃ m, r = Error.WriteTsmErr m := by
  simp only [writeBlockData] at h
  split at h
  · injection h with h1 h2
    injection h1 with h3
    exact ⟨_, h3.symm⟩
  · split at h
    · injection h with h1 h2
      injection h1 with h3
      exact ⟨_, h3.symm⟩
    · split at h
      · injection h with h1 h2
        injection h1 with h3
        exact ⟨_, h3.symm⟩
      · split at h
        · injection h with h1 h2
          injection h1 with h3
          exact ⟨_, h3.symm⟩
        · injection h with h1 h2
          injection h1

lemma TsmIndexBuilder.idx_loop_error_form :
    ∀ (indexs : List (Nat × List FileBlock)) (c : FileCursor) (r : Error) (c2 : FileCursor),
      TsmIndexBuilder.buildLoop indexs c = some (Except.error r, c2) →
      ∃ m, r = Error.WriteTsmErr m := by
  intro indexs
  induction indexs with
  | nil => intro c r c2 h; simp [TsmIndexBuilder.buildLoop] at h
  | cons hd tl ih =>
    intro c r c2 h
    obtain ⟨fid, blks⟩ := hd
    simp only [TsmIndexBuilder.buildLoop] at h
    split at h
    · exact absurd h (by simp)
    · split at h
      · injection h with h1
        injection h1 with h2 h3
        injection h2 with h4
        exact ⟨_, h4.symm⟩
      · exact ih _ r c2 h

lemma TsmIndexBuilder.idx_build_error_form (indexs : List (Nat × List FileBlock))
    (c : FileCursor) (r : Error) (c2 : FileCursor)
    (h : TsmIndexBuilder.build indexs c = some (Except.error r, c2)) :
    ∃ m, r = Error.WriteTsmErr m := by
  unfold TsmIndexBuilder.build at h
  split at h
  · exact absurd h (by simp)
  · rename_i e cx heq
    injection h with h1
    injection h1 with h2 h3
    injection h2 with h4
    obtain ⟨m, hm⟩ := TsmIndexBuilder.idx_loop_error_form indexs c e cx heq
    exact ⟨m, by rw [← h4]; exact hm⟩
  · injection h with h1
    injection h1 with h2 h3
    injection h2

lemma TsmBlockWriter.blk_loop_error_form (MAX : Nat) (block : DataBlock) (ft : Nat)
    (hM : 1 ≤ MAX) (hl : 1 ≤ block.len) :
    ∀ (k i : Nat) (c : FileCursor) (r : Error) (c2 : FileCursor),
      i + k ≤ (block.len - 1) / MAX + 1 →
      TsmBlockWriter.buildLoop MAX block block.len ft k i (startF MAX block.len i) c =
        (Except.error r, c2) →
      ∃ m, r = Error.WriteTsmErr m := by
  intro k
  induction k with
  | zero =>
    intro i c r c2 _ h
    simp [TsmBlockWriter.buildLoop] at h
  | succ k ih =>
    intro i c r c2 hn h
    have hse : startF MAX block.len i ≤ endF MAX block.len i := startF_le_endF MAX block.len i
    have hel : endF MAX block.len i ≤ block.len :=
      endF_le_len MAX block.len hM hl i (by omega)
    simp only [TsmBlockWriter.buildLoop] at h
    split at h
    · rename_i err heq
      rw [DataBlock.encode_ok block (startF MAX block.len i)
            (block.len % MAX + i * MAX) hse hel] at heq
      exact absurd heq (by simp)
    · split at h
      · rename_i er cE heq
        obtain ⟨m, hm⟩ := emitHeaderIfNeeded_error_form c er cE heq
        injection h with h1 h2
        injection h1 with h3
        exact ⟨m, by rw [← h3]; exact hm⟩
      · split at h
        · rename_i er cW heq
          obtain ⟨m, hm⟩ := writeBlockData_error_form _ _ _ _ _ _ er cW heq
          injection h with h1 h2
          injection h1 with h3
          exact ⟨m, by rw [← h3]; exact hm⟩
        · split at h
          · injection h with h1 h2
            injection h1
          · rename_i er c3 heq
            injection h with h1 h2
            injection h1 with h3
            subst h3
            exact ih (i + 1) _ er c3 (by omega) heq

lemma TsmBlockWriter.blk_build_error_form (MAX : Nat) (block : DataBlock) (c : FileCursor)
    (r : Error) (c2 : FileCursor)
    (h : TsmBlockWriter.build MAX block c = some (Except.error r, c2)) :
    ∃ m, r = Error.WriteTsmErr m := by
  unfold TsmBlockWriter.build at h
  split at h
  · exact absurd h (by simp)
  · rename_i hM0
    split at h
    · exact absurd h (by simp)
    · rename_i m heq
      have hlm : 1 ≤ block.len ∧ m = block.len - 1 := by
        by_cases hc : 1 ≤ block.len
        · rw [show usizeCheckedSub block.len 1 = some (block.len - 1) from by
            simp [usizeCheckedSub, hc]] at heq
          injection heq with h1
          omega
        · rw [show usizeCheckedSub block.len 1 = none from by
            simp [usizeCheckedSub]; omega] at heq
          exact absurd heq (by simp)
      injection h with h1
      refine TsmBlockWriter.blk_loop_error_form MAX block block.filed_type
        (by omega) hlm.1 (m / MAX + 1) 0 c r c2 ?_ h1
      rw [hlm.2]
      omega

set_option maxRecDepth 8000 in
/-- C7: every underlying write or seek failure in the Block Writer, Index
Builder or Footer Builder surfaces as a WriteTsmErr carrying the underlying
cause string, with no retry; the concrete scenario shows the absence of
rollback: a failure on the fourth operation leaves the header and the first
CRC32 already written, cursor position included. -/
theorem C7_write_error_propagation :
    (∀ (c : FileCursor) (offset : Nat), c.failAt = some c.opsDone →
      FooterBuilder.build c offset = (Except.error (Error.WriteTsmErr c.failMsg), c)) ∧
    (∀ (indexs : List (Nat × List FileBlock)) (c : FileCursor) (r : Error) (c2 : FileCursor),
      TsmIndexBuilder.build indexs c = some (Except.error r, c2) →
      ∃ m, r = Error.WriteTsmErr m) ∧
    (∀ (MAX : Nat) (block : DataBlock) (c : FileCursor) (r : Error) (c2 : FileCursor),
      TsmBlockWriter.build MAX block c = some (Except.error r, c2) →
      ∃ m, r = Error.WriteTsmErr m) ∧
    (∃ c2, TsmBlockWriter.build 2 blockW failCursor3 =
        some (Except.error (Error.WriteTsmErr "io"), c2) ∧
      c2.data = headerBytes ++ u32be (crc32 (encodeU64s [1])) ∧
      c2.pos = 9 ∧ failCursor3.data = []) := by
  refine ⟨?_, TsmIndexBuilder.idx_build_error_form, TsmBlockWriter.blk_build_error_form, ?_⟩
  · intro c offset hf
    simp [FooterBuilder.build, FileCursor.write, hf]
  · exact ⟨_, rfl, by decide, rfl, rfl⟩

/-- C7 witness: a failing cursor aborts the footer build with the cause. -/
theorem C7_write_error_propagation_witness :
    FooterBuilder.build failCursor0 9 =
      (Except.error (Error.WriteTsmErr "disk full"), failCursor0) :=
  C7_write_error_propagation.1 failCursor0 9 rfl

lemma length_flatMap_u64be (xs : List Nat) : (xs.flatMap u64be).length = 8 * xs.length := by
  induction xs with
  | nil => rfl
  | cons a l ih =>
    simp only [List.flatMap_cons, List.length_append, ih, length_u64be, List.length_cons]
    omega

lemma length_encodeU64s (xs : List Nat) : (encodeU64s xs).length = 4 + 8 * xs.length := by
  simp only [encodeU64s, List.length_append, length_u32be, length_flatMap_u64be]

lemma length_slice (l : List Nat) (s e : Nat) (h1 : s ≤ e) (h2 : e ≤ l.length) :
    ((l.drop s).take (e - s)).length = e - s := by
  simp only [List.length_take, List.length_drop]
  omega

lemma emitHeaderIfNeeded_skip (c : FileCursor) (h : HEADER_LEN < c.pos) :
    emitHeaderIfNeeded c = (Except.ok (), c) := by
  unfold emitHeaderIfNeeded
  rw [if_neg (by omega : ¬ c.pos ≤ HEADER_LEN)]

lemma TsmBlockWriter.buildLoop_ok (MAX : Nat) (block : DataBlock) (ft : Nat)
    (hM : 1 ≤ MAX) (hl : 1 ≤ block.len) (hv : block.val.length = block.ts.length) :
    ∀ (k i : Nat) (c : FileCursor),
      i + k ≤ (block.len - 1) / MAX + 1 →
      c.failAt = none → c.pos = c.data.length → HEADER_LEN < c.pos →
      ∃ res c2,
        TsmBlockWriter.buildLoop MAX block block.len ft k i (startF MAX block.len i) c =
          (Except.ok res, c2) ∧
        res.length = k ∧
        c2.failAt = none ∧ c2.pos = c2.data.length ∧ c.pos ≤ c2.pos ∧ HEADER_LEN < c2.pos ∧
        c2.hdrWrites = c.hdrWrites ∧ c2.data.take 5 = c.data.take 5 ∧
        (∀ (j : Nat) (hj : j < res.length),
          (res.get ⟨j, hj⟩).min_ts =
            (block.time_range (startF MAX block.len (i + j)) (endF MAX block.len (i + j))).1 ∧
          (res.get ⟨j, hj⟩).max_ts =
            (block.time_range (startF MAX block.len (i + j)) (endF MAX block.len (i + j))).2 ∧
          (res.get ⟨j, hj⟩).filed_type = ft ∧
          (res.get ⟨j, hj⟩).reader_idx = 0 ∧
          (res.get ⟨j, hj⟩).size =
            8 + 16 * (endF MAX block.len (i + j) - startF MAX block.len (i + j))) := by
  intro k
  induction k with
  | zero =>
    intro i c hn hf hp hpos
    refine ⟨[], c, rfl, rfl, hf, hp, le_refl _, hpos, rfl, rfl, ?_⟩
    intro j hj
    simp at hj
  | succ k ih =>
    intro i c hn hf hp hpos
    have hH : HEADER_LEN = 5 := rfl
    have hse := startF_le_endF MAX block.len i
    have hel : endF MAX block.len i ≤ block.len :=
      endF_le_len MAX block.len hM hl i (by omega)
    have henc := DataBlock.encode_ok block (startF MAX block.len i)
      (block.len % MAX + i * MAX) hse hel
    have hskip := emitHeaderIfNeeded_skip c hpos
    have htlen : ((block.ts.drop (startF MAX block.len i)).take
        (block.len % MAX + i * MAX - startF MAX block.len i)).length =
        block.len % MAX + i * MAX - startF MAX block.len i :=
      length_slice block.ts (startF MAX block.len i) (block.len % MAX + i * MAX) hse hel
    have hvlen : ((block.val.drop (startF MAX block.len i)).take
        (block.len % MAX + i * MAX - startF MAX block.len i)).length =
        block.len % MAX + i * MAX - startF MAX block.len i :=
      length_slice block.val (startF MAX block.len i) (block.len % MAX + i * MAX) hse
        (by rw [hv]; exact hel)
    have hwbd := writeBlockData_ok
      (encodeU64s ((block.ts.drop (startF MAX block.len i)).take
        (block.len % MAX + i * MAX - startF MAX block.len i)))
      (encodeU64s ((block.val.drop (startF MAX block.len i)).take
        (block.len % MAX + i * MAX - startF MAX block.len i)))
      (block.time_range (startF MAX block.len i) (block.len % MAX + i * MAX)).1
      (block.time_range (startF MAX block.len i) (block.len % MAX + i * MAX)).2
      ft c hf hp
    obtain ⟨rest, c4, hrec, hlen4, hf4, hp4, hle4, hpos4, hhdr4, htake4, helem⟩ :=
      ih (i + 1)
        { c with data := c.data ++ u32be (crc32 (encodeU64s ((block.ts.drop
                   (startF MAX block.len i)).take
                   (block.len % MAX + i * MAX - startF MAX block.len i)))) ++
                 encodeU64s ((block.ts.drop (startF MAX block.len i)).take
                   (block.len % MAX + i * MAX - startF MAX block.len i)) ++
                 u32be (crc32 (encodeU64s ((block.val.drop
                   (startF MAX block.len i)).take
                   (block.len % MAX + i * MAX - startF MAX block.len i)))) ++
                 encodeU64s ((block.val.drop (startF MAX block.len i)).take
                   (block.len % MAX + i * MAX - startF MAX block.len i)),
                 pos := c.pos + 4 + (encodeU64s ((block.ts.drop
                   (startF MAX block.len i)).take
                   (block.len % MAX + i * MAX - startF MAX block.len i))).length + 4 +
                   (encodeU64s ((block.val.drop (startF MAX block.len i)).take
                   (block.len % MAX + i * MAX - startF MAX block.len i))).length,
                 opsDone := c.opsDone + 4 }
        (by omega) hf
        (by simp [hp, Nat.add_assoc])
        (by dsimp only; omega)
    rw [show startF MAX block.len (i + 1) = block.len % MAX + i * MAX from rfl] at hrec
    refine ⟨{ min_ts := (block.time_range (startF MAX block.len i)
                (block.len % MAX + i * MAX)).1,
              max_ts := (block.time_range (startF MAX block.len i)
                (block.len % MAX + i * MAX)).2,
              offset := c.pos, filed_type := ft,
              size := (encodeU64s ((block.ts.drop (startF MAX block.len i)).take
                (block.len % MAX + i * MAX - startF MAX block.len i))).length +
                (encodeU64s ((block.val.drop (startF MAX block.len i)).take
                (block.len % MAX + i * MAX - startF MAX block.len i))).length,
              reader_idx := 0 } :: rest, c4, ?_, by simp [hlen4], hf4, hp4, ?_, hpos4,
            ?_, ?_, ?_⟩
    · conv_lhs => rw [TsmBlockWriter.buildLoop]
      simp only [henc, hskip, hwbd, hrec]
    · have : c.pos ≤ c.pos + 4 + (encodeU64s ((block.ts.drop
          (startF MAX block.len i)).take
          (block.len % MAX + i * MAX - startF MAX block.len i))).length + 4 +
          (encodeU64s ((block.val.drop (startF MAX block.len i)).take
          (block.len % MAX + i * MAX - startF MAX block.len i))).length := by omega
      exact le_trans this hle4
    · exact hhdr4
    · rw [htake4]
      show (c.data ++ _ ++ _ ++ _ ++ _).take 5 = c.data.take 5
      rw [List.append_assoc, List.append_assoc, List.append_assoc,
          List.take_append_of_le_length (by omega : 5 ≤ c.data.length)]
    · intro j hj
      cases j with
      | zero =>
        refine ⟨rfl, rfl, rfl, rfl, ?_⟩
        show (encodeU64s _).length + (encodeU64s _).length = _
        rw [length_encodeU64s, length_encodeU64s, htlen, hvlen]
        have h0 : i + 0 = i := rfl
        rw [h0]
        show 4 + 8 * (endF MAX block.len i - startF MAX block.len i) +
            (4 + 8 * (endF MAX block.len i - startF MAX block.len i)) = _
        omega
      | succ j =>
        have hj2 : j < rest.length := by
          simp at hj
          omega
        obtain ⟨f1, f2, f3, f4, f5⟩ := helem j hj2
        have hidx : i + 1 + j = i + (j + 1) := by omega
        rw [hidx] at f1 f2 f5
        exact ⟨f1, f2, f3, f4, f5⟩

lemma emitHeaderIfNeeded_emit (c : FileCursor) (hf : c.failAt = none)
    (hle : c.pos ≤ HEADER_LEN) :
    emitHeaderIfNeeded c =
      (Except.ok (), { c with data := writeAt c.data 0 headerBytes, pos := 5,
                              opsDone := c.opsDone + 2,
                              hdrWrites := c.hdrWrites + 1 }) := by
  unfold emitHeaderIfNeeded
  rw [if_pos hle, FileCursor.seekStart0_ok c hf]
  simp [FileCursor.write, hf]

lemma TsmBlockWriter.build_ok_after (MAX : Nat) (block : DataBlock) (c : FileCursor)
    (hM : 1 ≤ MAX) (hl : 1 ≤ block.len) (hv : block.val.length = block.ts.length)
    (hf : c.failAt = none) (hp : c.pos = c.data.length) (hpos : HEADER_LEN < c.pos) :
    ∃ res c2, TsmBlockWriter.build MAX block c = some (Except.ok res, c2) ∧
      res.length = (block.len - 1) / MAX + 1 ∧
      c2.failAt = none ∧ c2.pos = c2.data.length ∧ c.pos ≤ c2.pos ∧ HEADER_LEN < c2.pos ∧
      c2.hdrWrites = c.hdrWrites ∧ c2.data.take 5 = c.data.take 5 ∧
      (∀ (j : Nat) (hj : j < res.length),
        (res.get ⟨j, hj⟩).min_ts =
          (block.time_range (startF MAX block.len j) (endF MAX block.len j)).1 ∧
        (res.get ⟨j, hj⟩).max_ts =
          (block.time_range (startF MAX block.len j) (endF MAX block.len j)).2 ∧
        (res.get ⟨j, hj⟩).filed_type = block.filed_type ∧
        (res.get ⟨j, hj⟩).reader_idx = 0 ∧
        (res.get ⟨j, hj⟩).size =
          8 + 16 * (endF MAX block.len j - startF MAX block.len j)) := by
  obtain ⟨res, c2, hloop, hlen, hf2, hp2, hle2, hpos2, hhdr2, htake2, helem⟩ :=
    TsmBlockWriter.buildLoop_ok MAX block block.filed_type hM hl hv
      ((block.len - 1) / MAX + 1) 0 c (by omega) hf hp hpos
  rw [show startF MAX block.len 0 = 0 from rfl] at hloop
  refine ⟨res, c2, ?_, hlen, hf2, hp2, hle2, hpos2, hhdr2, htake2, ?_⟩
  · unfold TsmBlockWriter.build
    rw [if_neg (by omega : ¬ MAX = 0),
        show usizeCheckedSub block.len 1 = some (block.len - 1) from by
          simp [usizeCheckedSub, hl]]
    show some (TsmBlockWriter.buildLoop MAX block block.len block.filed_type
      ((block.len - 1) / MAX + 1) 0 0 c) = some (Except.ok res, c2)
    rw [hloop]
  · intro j hj
    obtain ⟨f1, f2, f3, f4, f5⟩ := helem j hj
    rw [Nat.zero_add] at f1 f2 f5
    exact ⟨f1, f2, f3, f4, f5⟩

lemma TsmBlockWriter.build_ok_fresh (MAX : Nat) (block : DataBlock) (c : FileCursor)
    (hM : 1 ≤ MAX) (hl : 1 ≤ block.len) (hv : block.val.length = block.ts.length)
    (hf : c.failAt = none) (hd : c.data = []) (hp : c.pos = 0) :
    ∃ res c2, TsmBlockWriter.build MAX block c = some (Except.ok res, c2) ∧
      res.length = (block.len - 1) / MAX + 1 ∧
      c2.failAt = none ∧ c2.pos = c2.data.length ∧ HEADER_LEN < c2.pos ∧
      c2.hdrWrites = c.hdrWrites + 1 ∧ c2.data.take 5 = headerBytes ∧
      (∀ (j : Nat) (hj : j < res.length),
        (res.get ⟨j, hj⟩).min_ts =
          (block.time_range (startF MAX block.len j) (endF MAX block.len j)).1 ∧
        (res.get ⟨j, hj⟩).max_ts =
          (block.time_range (startF MAX block.len j) (endF MAX block.len j)).2 ∧
        (res.get ⟨j, hj⟩).filed_type = block.filed_type ∧
        (res.get ⟨j, hj⟩).reader_idx = 0 ∧
        (res.get ⟨j, hj⟩).size =
          8 + 16 * (endF MAX block.len j - startF MAX block.len j)) := by
  have hH : HEADER_LEN = 5 := rfl
  have hse0 := startF_le_endF MAX block.len 0
  have hel0 : endF MAX block.len 0 ≤ block.len :=
    endF_le_len MAX block.len hM hl 0 (Nat.zero_le _)
  have henc0 := DataBlock.encode_ok block (startF MAX block.len 0)
    (block.len % MAX + 0 * MAX) hse0 hel0
  have hemit := emitHeaderIfNeeded_emit c hf (by omega)
  have hWlen : (writeAt c.data 0 headerBytes).length = 5 := by
    rw [hd]
    simp [writeAt]
  have htlen := length_slice block.ts (startF MAX block.len 0)
    (block.len % MAX + 0 * MAX) hse0 hel0
  have hvlen := length_slice block.val (startF MAX block.len 0)
    (block.len % MAX + 0 * MAX) hse0 (by rw [hv]; exact hel0)
  rw [show startF MAX block.len 0 = 0 from rfl] at henc0 htlen hvlen
  have hwbd := writeBlockData_ok
    (encodeU64s ((block.ts.drop 0).take (block.len % MAX + 0 * MAX - 0)))
    (encodeU64s ((block.val.drop 0).take (block.len % MAX + 0 * MAX - 0)))
    (block.time_range 0 (block.len % MAX + 0 * MAX)).1
    (block.time_range 0 (block.len % MAX + 0 * MAX)).2
    block.filed_type
    { c with data := writeAt c.data 0 headerBytes, pos := 5,
             opsDone := c.opsDone + 2, hdrWrites := c.hdrWrites + 1 }
    hf (by dsimp only; omega)
  obtain ⟨rest, c2, hloop, hlen, hf2, hp2, hle2, hpos2, hhdr2, htake2, helem⟩ :=
    TsmBlockWriter.buildLoop_ok MAX block block.filed_type hM hl hv
      ((block.len - 1) / MAX) 1
      { c with data := writeAt c.data 0 headerBytes ++
                 u32be (crc32 (encodeU64s ((block.ts.drop 0).take
                   (block.len % MAX + 0 * MAX - 0)))) ++
                 encodeU64s ((block.ts.drop 0).take (block.len % MAX + 0 * MAX - 0)) ++
                 u32be (crc32 (encodeU64s ((block.val.drop 0).take
                   (block.len % MAX + 0 * MAX - 0)))) ++
                 encodeU64s ((block.val.drop 0).take (block.len % MAX + 0 * MAX - 0)),
               pos := 5 + 4 +
                 (encodeU64s ((block.ts.drop 0).take
                   (block.len % MAX + 0 * MAX - 0))).length + 4 +
                 (encodeU64s ((block.val.drop 0).take
                   (block.len % MAX + 0 * MAX - 0))).length,
               opsDone := c.opsDone + 2 + 4, hdrWrites := c.hdrWrites + 1 }
      (by omega) hf
      (by dsimp only; simp only [List.length_append, hWlen, length_u32be]; try omega)
      (by dsimp only; omega)
  rw [show startF MAX block.len 1 = block.len % MAX + 0 * MAX from rfl] at hloop
  refine ⟨{ min_ts := (block.time_range 0 (block.len % MAX + 0 * MAX)).1,
            max_ts := (block.time_range 0 (block.len % MAX + 0 * MAX)).2,
            offset := 5, filed_type := block.filed_type,
            size := (encodeU64s ((block.ts.drop 0).take
              (block.len % MAX + 0 * MAX - 0))).length +
              (encodeU64s ((block.val.drop 0).take
              (block.len % MAX + 0 * MAX - 0))).length,
            reader_idx := 0 } :: rest, c2, ?_, by simp [hlen], hf2, hp2, ?_,
          by rw [hhdr2], ?_, ?_⟩
  · unfold TsmBlockWriter.build
    rw [if_neg (by omega : ¬ MAX = 0),
        show usizeCheckedSub block.len 1 = some (block.len - 1) from by
          simp [usizeCheckedSub, hl]]
    show some (TsmBlockWriter.buildLoop MAX block block.len block.filed_type
      ((block.len - 1) / MAX + 1) 0 0 c) = _
    conv_lhs => rw [TsmBlockWriter.buildLoop]
    simp only [henc0, hemit, hwbd, Nat.zero_add, hloop]
  · omega
  · rw [htake2]
    dsimp only
    rw [List.append_assoc, List.append_assoc, List.append_assoc,
        List.take_append_of_le_length (by omega : 5 ≤ (writeAt c.data 0 headerBytes).length)]
    rw [hd]
    rfl
  · intro j hj
    cases j with
    | zero =>
      refine ⟨rfl, rfl, rfl, rfl, ?_⟩
      show (encodeU64s ((block.ts.drop 0).take (block.len % MAX + 0 * MAX - 0))).length +
          (encodeU64s ((block.val.drop 0).take (block.len % MAX + 0 * MAX - 0))).length =
          8 + 16 * (block.len % MAX + 0 * MAX - 0)
      rw [length_encodeU64s, length_encodeU64s, htlen, hvlen]
      omega
    | succ j =>
      have hj2 : j < rest.length := by
        simp at hj
        omega
      obtain ⟨f1, f2, f3, f4, f5⟩ := helem j hj2
      have hidx : 1 + j = j + 1 := by omega
      rw [hidx] at f1 f2 f5
      exact ⟨f1, f2, f3, f4, f5⟩

/-- C2: TsmBlockWriter::build on a Data Block of length len produces exactly
n = (len - 1) / MAX + 1 sub-blocks (so exactly MAX values give one and
MAX + 1 give two); iteration i uses start equal to the previous end
(initially 0) and end = len % MAX + i * MAX, each sub-block covering at
most MAX values; every descriptor takes its time range and its size from
time_range and encode at exactly those boundaries. -/
theorem C2_sub_block_splitting :
    ∀ (MAX : Nat) (block : DataBlock) (c : FileCursor),
      1 ≤ MAX → 1 ≤ block.len → block.val.length = block.ts.length →
      c.failAt = none →
      ((c.data = [] ∧ c.pos = 0) ∨ (c.pos = c.data.length ∧ HEADER_LEN < c.pos)) →
      ((block.len = MAX → (block.len - 1) / MAX + 1 = 1) ∧
       (block.len = MAX + 1 → (block.len - 1) / MAX + 1 = 2) ∧
       startF MAX block.len 0 = 0 ∧
       (∀ i, startF MAX block.len (i + 1) = endF MAX block.len i) ∧
       (∀ i, endF MAX block.len i = block.len % MAX + i * MAX) ∧
       (∀ i, endF MAX block.len i - startF MAX block.len i ≤ MAX)) ∧
      ∃ res c2, TsmBlockWriter.build MAX block c = some (Except.ok res, c2) ∧
        res.length = (block.len - 1) / MAX + 1 ∧
        (∀ (j : Nat) (hj : j < res.length),
          (res.get ⟨j, hj⟩).min_ts =
            (block.time_range (startF MAX block.len j) (endF MAX block.len j)).1 ∧
          (res.get ⟨j, hj⟩).max_ts =
            (block.time_range (startF MAX block.len j) (endF MAX block.len j)).2 ∧
          (res.get ⟨j, hj⟩).filed_type = block.filed_type ∧
          (res.get ⟨j, hj⟩).reader_idx = 0 ∧
          (res.get ⟨j, hj⟩).size =
            8 + 16 * (endF MAX block.len j - startF MAX block.len j)) := by
  intro MAX block c hM hl hv hf hc
  constructor
  · refine ⟨?_, ?_, rfl, fun i => rfl, fun i => rfl, endF_sub_startF_le MAX block.len hM⟩
    · intro hlen
      rw [hlen, Nat.div_eq_of_lt (by omega)]
    · intro hlen
      rw [hlen, show MAX + 1 - 1 = MAX from rfl, Nat.div_self (by omega)]
  · rcases hc with ⟨hd, hp⟩ | ⟨hp, hpos⟩
    · obtain ⟨res, c2, hb, hlen, _, _, _, _, _, helem⟩ :=
        TsmBlockWriter.build_ok_fresh MAX block c hM hl hv hf hd hp
      exact ⟨res, c2, hb, hlen, helem⟩
    · obtain ⟨res, c2, hb, hlen, _, _, _, _, _, _, helem⟩ :=
        TsmBlockWriter.build_ok_after MAX block c hM hl hv hf hp hpos
      exact ⟨res, c2, hb, hlen, helem⟩

/-- C2 witness: a 3-value block with MAX = 2 splits into 2 sub-blocks. -/
theorem C2_sub_block_splitting_witness :
    ∃ res c2, TsmBlockWriter.build 2 blockW freshCursor = some (Except.ok res, c2) ∧
      res.length = 2 := by
  obtain ⟨res, c2, hb, hlen, _⟩ :=
    (C2_sub_block_splitting 2 blockW freshCursor (by decide) (by decide) rfl rfl
      (Or.inl ⟨rfl, rfl⟩)).2
  exact ⟨res, c2, hb, hlen⟩

lemma TsmBlockWriter.buildMany_ok_after (MAX : Nat) (blocks : List DataBlock) :
    (∀ b ∈ blocks, 1 ≤ DataBlock.len b ∧ b.val.length = b.ts.length) → 1 ≤ MAX →
    ∀ c : FileCursor, c.failAt = none → c.pos = c.data.length → HEADER_LEN < c.pos →
    ∃ ress c2, TsmBlockWriter.buildMany MAX blocks c = some (Except.ok ress, c2) ∧
      c2.failAt = none ∧ c2.pos = c2.data.length ∧ HEADER_LEN < c2.pos ∧
      c2.hdrWrites = c.hdrWrites ∧ c2.data.take 5 = c.data.take 5 := by
  induction blocks with
  | nil =>
    intro _ hM c hf hp hpos
    exact ⟨[], c, rfl, hf, hp, hpos, rfl, rfl⟩
  | cons b tl ih =>
    intro hall hM c hf hp hpos
    obtain ⟨res, cB, hb, _, hfB, hpB, _, hposB, hhdrB, htakeB, _⟩ :=
      TsmBlockWriter.build_ok_after MAX b c hM
        (hall b (List.mem_cons_self _ _)).1 (hall b (List.mem_cons_self _ _)).2 hf hp hpos
    obtain ⟨ress, c2, hmany, hf2, hp2, hpos2, hhdr2, htake2⟩ :=
      ih (fun x hx => hall x (List.mem_cons_of_mem _ hx)) hM cB hfB hpB hposB
    refine ⟨res :: ress, c2, ?_, hf2, hp2, hpos2, by rw [hhdr2, hhdrB],
            by rw [htake2, htakeB]⟩
    simp only [TsmBlockWriter.buildMany, hb, hmany]

/-- C3: the header branch is taken exactly when the cursor position is at or
before HEADER_LEN = 5 (seeking to 0 and writing magic plus version), and
driving the writer over any non-empty sequence of Data Blocks from a fresh
cursor leaves exactly one header emission, with the 5 header bytes at
offset 0, never rewritten once the cursor has passed byte 5. -/
theorem C3_header_once :
    (∀ c : FileCursor, HEADER_LEN < c.pos → emitHeaderIfNeeded c = (Except.ok (), c)) ∧
    (∀ c : FileCursor, c.failAt = none → c.pos ≤ HEADER_LEN →
      emitHeaderIfNeeded c =
        (Except.ok (), { c with data := writeAt c.data 0 headerBytes, pos := 5,
                                opsDone := c.opsDone + 2,
                                hdrWrites := c.hdrWrites + 1 })) ∧
    (∀ (MAX : Nat) (b0 : DataBlock) (tl : List DataBlock),
      1 ≤ MAX →
      (∀ b ∈ b0 :: tl, 1 ≤ DataBlock.len b ∧ b.val.length = b.ts.length) →
      ∃ ress c2, TsmBlockWriter.buildMany MAX (b0 :: tl) freshCursor =
          some (Except.ok ress, c2) ∧
        c2.hdrWrites = 1 ∧ c2.data.take 5 = headerBytes ∧ HEADER_LEN < c2.pos) := by
  refine ⟨emitHeaderIfNeeded_skip, emitHeaderIfNeeded_emit, ?_⟩
  intro MAX b0 tl hM hall
  obtain ⟨res, cB, hb, _, hfB, hpB, hposB, hhdrB, htakeB, _⟩ :=
    TsmBlockWriter.build_ok_fresh MAX b0 freshCursor hM
      (hall b0 (List.mem_cons_self _ _)).1 (hall b0 (List.mem_cons_self _ _)).2 rfl rfl rfl
  obtain ⟨ress, c2, hmany, hf2, hp2, hpos2, hhdr2, htake2⟩ :=
    TsmBlockWriter.buildMany_ok_after MAX tl
      (fun x hx => hall x (List.mem_cons_of_mem _ hx)) hM cB hfB hpB hposB
  refine ⟨res :: ress, c2, ?_, ?_, by rw [htake2, htakeB], hpos2⟩
  · simp only [TsmBlockWriter.buildMany, hb, hmany]
  · rw [hhdr2, hhdrB]
    rfl

/-- C3 witness: two blocks into one fresh file leave exactly one header. -/
theorem C3_header_once_witness :
    ∃ ress c2, TsmBlockWriter.buildMany 2 [blockW, blockC1] freshCursor =
        some (Except.ok ress, c2) ∧
      c2.hdrWrites = 1 ∧ c2.data.take 5 = headerBytes ∧ HEADER_LEN < c2.pos := by
  exact C3_header_once.2.2 2 blockW [blockC1] (by decide) (by decide)

set_option maxRecDepth 8000 in
/-- C1: the write-then-read round trip fails on a Data Block whose length is
an exact multiple of MAX (here MAX = 2, len = 2): the first boundary
end = len % MAX = 0 emits an empty sub-block and the values are never
written, so the finished file reads back with zero (timestamp, value)
pairs instead of the original two. -/
theorem C1_round_trip_fails_at_full_block :
    ∃ c2, writeTsmFile 2 [(7, blockC1)] freshCursor = some (Except.ok (), c2) ∧
      readTsmFile c2.data = some [(7, 1, [])] ∧
      blockC1.ts.zip blockC1.val = [(1, 3), (2, 4)] ∧
      ([] : List (Nat × Nat)) ≠ [(1, 3), (2, 4)] := by
  refine ⟨_, rfl, ?_, rfl, by decide⟩
  rfl

end Tsm
